import Mathlib

/-!
Verification of the record-level decoding engine of `pyne/endf.py`.

The source is Python 2 (its `range((NPL-1)/6 + 1)` loops rely on Python 2
integer floor division).  The embedding models:

* a line as `List Char`; Python slicing `line[a:b]` as `pySlice` (clipping,
  never failing, exactly like Python);
* Python exceptions that can arise in this module as the inductive `PyErr`
  (`int()` on a non-numeric string raises ValueError; indexing `s[-2]` on a
  string of length < 2 raises IndexError; the module's `eval` fallback raises
  SyntaxError / NameError on input that is not a numeric literal, collapsed
  here into `evalFailure`);
* a decoded floating value as `PyNum`, the decomposed decimal literal
  (sign, integer digits, fraction digits, fraction length, exponent); its
  numeric value is `toRat`.  The source's `convert` returns the Python number
  itself; here `convert` returns the literal decomposition and `convertVal`
  its numeric value, which is the source's return value.
* the open file handle `self.fh` as `Tape`: the list of all lines plus a
  cursor.  Python's `readline()` at end of file returns `''`, modeled by
  `Tape.line` defaulting to `[]` past the end while the cursor still
  advances.
-/

/-- Python exceptions raisable by the code under study. -/
inductive PyErr where
  | valueError : PyErr
  | indexError : PyErr
  | evalFailure : PyErr
  deriving DecidableEq, Repr

/-- A decoded numeric literal: `(-1)^neg * (ip + fp / 10^flen) * 10^ex`.
`ip` is the value of the digits before the decimal point, `fp` the value of
the digits after it, `flen` how many digits follow the point. -/
structure PyNum where
  neg : Bool
  ip : ℕ
  fp : ℕ
  flen : ℕ
  ex : ℤ
  deriving DecidableEq, Repr

/-- Numeric value of a decoded literal. -/
def toRat (p : PyNum) : ℚ :=
  (if p.neg then -1 else 1) * ((p.ip : ℚ) + (p.fp : ℚ) / 10 ^ p.flen) * 10 ^ p.ex

/-- Value of a digit string, most significant first. -/
def digitsVal (l : List Char) : ℕ :=
  l.foldl (fun acc c => acc * 10 + (c.toNat - 48)) 0

/-- Strip leading spaces (the only whitespace occurring in ENDF slots). -/
def trimLeft (l : List Char) : List Char := l.dropWhile (· = ' ')

/-- Strip trailing spaces. -/
def trimRight (l : List Char) : List Char := (l.reverse.dropWhile (· = ' ')).reverse

/-- Parse an unsigned decimal mantissa: `digits`, `digits.digits`, `digits.`
or `.digits` (at least one digit overall), as accepted by Python's `float`.
Returns `(ip, fp, flen)`. -/
def parseUnsigned (l : List Char) : Option (ℕ × ℕ × ℕ) :=
  let ip := l.takeWhile Char.isDigit
  match l.dropWhile Char.isDigit with
  | [] => if ip.isEmpty then none else some (digitsVal ip, 0, 0)
  | '.' :: frac =>
      if frac.all Char.isDigit && !(ip.isEmpty && frac.isEmpty) then
        some (digitsVal ip, digitsVal frac, frac.length)
      else none
  | _ => none

/-- Parse an optionally signed mantissa. -/
def parseMantissa (l : List Char) : Option (Bool × ℕ × ℕ × ℕ) :=
  match l with
  | '+' :: r => (parseUnsigned r).map (fun u => (false, u))
  | '-' :: r => (parseUnsigned r).map (fun u => (true, u))
  | r => (parseUnsigned r).map (fun u => (false, u))

/-- Parse an exponent: optional sign followed by at least one digit. -/
def parseExp (l : List Char) : Option ℤ :=
  match l with
  | '+' :: r => if !r.isEmpty && r.all Char.isDigit then some (digitsVal r) else none
  | '-' :: r => if !r.isEmpty && r.all Char.isDigit then some (-(digitsVal r : ℤ)) else none
  | r => if !r.isEmpty && r.all Char.isDigit then some (digitsVal r) else none

/-- Non-exponent character. -/
def notExpChar (c : Char) : Bool := !(c = 'e' || c = 'E')

/-- Parse a Python numeric literal (int or float shape, optional `e`/`E`
exponent part).  This is the fragment of literals that can denote a finite
number; `inf`/`nan` (not representable in `ℚ` and impossible in ENDF slots)
are out of scope. -/
def parseFloatLit (l : List Char) : Option PyNum :=
  let mant := l.takeWhile notExpChar
  match l.dropWhile notExpChar with
  | [] => (parseMantissa mant).map (fun (b, ip, fp, fl) => ⟨b, ip, fp, fl, 0⟩)
  | _ :: suffix =>
      match parseMantissa mant, parseExp suffix with
      | some (b, ip, fp, fl), some e => some ⟨b, ip, fp, fl, e⟩
      | _, _ => none

/-- Python's `float(s)` on a string: whitespace may surround the literal. -/
def pyFloat (l : List Char) : Option PyNum :=
  parseFloatLit (trimLeft (trimRight l))

/-- The source's `eval(string)` fallback, restricted to what it does on the
strings this module feeds it: a numeric literal evaluates to its value
(trailing whitespace is tolerated); anything else — including leading
whitespace, which raises IndentationError under Python 2 — raises, modeled
as `none`.  (For input text that happens to name a Python object, `eval`
would instead return that object: the arbitrary-code-execution hazard noted
in the design review; no numeric result comes out of such input either.) -/
def evalNum (l : List Char) : Option PyNum :=
  if (trimLeft l).length = l.length then parseFloatLit (trimRight l) else none

/-- Python's `int(s)` on a string: optional surrounding whitespace, optional
sign, at least one digit.  `none` models a raised ValueError. -/
def pyInt (l : List Char) : Option ℤ :=
  match trimLeft (trimRight l) with
  | '+' :: r => if !r.isEmpty && r.all Char.isDigit then some (digitsVal r) else none
  | '-' :: r => if !r.isEmpty && r.all Char.isDigit then some (-(digitsVal r : ℤ)) else none
  | r => if !r.isEmpty && r.all Char.isDigit then some (digitsVal r) else none

/-- Python's `line[a:b]` slice: clips, never fails. -/
def pySlice (l : List Char) (a b : ℕ) : List Char := (l.take b).drop a

/-- `convert(string)` from the source, returning the decomposed literal:

    if string[-2] in '+-':
        return float(string[:-2] + 'e' + string[-2:])
    else:
        return eval(string)

`string[-2]` on a string of length < 2 raises IndexError. -/
def convert (s : List Char) : Except PyErr PyNum :=
  if s.length < 2 then .error .indexError
  else if s.getD (s.length - 2) ' ' = '+' ∨ s.getD (s.length - 2) ' ' = '-' then
    match pyFloat (s.take (s.length - 2) ++ 'e' :: s.drop (s.length - 2)) with
    | some v => .ok v
    | none => .error .valueError
  else
    match evalNum s with
    | some v => .ok v
    | none => .error .evalFailure

/-- The numeric value the source's `convert` returns. -/
def convertVal (s : List Char) : Except PyErr ℚ := (convert s).map toRat

deriving instance DecidableEq for Except

/-- The open file `self.fh`: all lines of the tape plus the read cursor. -/
structure Tape where
  lines : List (List Char)
  pos : ℕ
  deriving DecidableEq, Repr

/-- The line `self.fh.readline()` returns: `''` past the end of file. -/
def Tape.line (s : Tape) : List Char := s.lines.getD s.pos []

/-- Cursor state after one `readline()`. -/
def Tape.adv (s : Tape) : Tape := ⟨s.lines, s.pos + 1⟩

/-- Lift `int(...)`: failure raises ValueError. -/
def toExc {α : Type} (o : Option α) : Except PyErr α :=
  match o with
  | some a => .ok a
  | none => .error .valueError

/-- Truncation of a decoded literal toward zero, Python's `int()` applied to
a float value. -/
def pyTrunc (p : PyNum) : ℤ :=
  let numer : ℕ := p.ip * 10 ^ p.flen + p.fp
  let mag : ℕ :=
    if 0 ≤ p.ex then numer * 10 ^ p.ex.toNat / 10 ^ p.flen
    else numer / 10 ^ (p.flen + (-p.ex).toNat)
  if p.neg then -(mag : ℤ) else (mag : ℤ)

/-- Fields of a TEXT record line. -/
structure TextItems where
  HL : List Char
  MAT : ℤ
  MF : ℤ
  MT : ℤ
  NS : ℤ
  deriving DecidableEq, Repr

/-- Fields of a CONT record line; `C1`/`C2` are `none` when `skipC` was
requested (the directory case of `getContRecord`). -/
structure ContItems where
  C1 : Option PyNum
  C2 : Option PyNum
  L1 : ℤ
  L2 : ℤ
  N1 : ℤ
  N2 : ℤ
  MAT : ℤ
  MF : ℤ
  MT : ℤ
  NS : ℤ
  deriving DecidableEq, Repr

/-- Fields of a HEAD record line (`C1`, `C2` read as `ZA`, `AWR`). -/
structure HeadItems where
  ZA : ℤ
  AWR : PyNum
  L1 : ℤ
  L2 : ℤ
  N1 : ℤ
  N2 : ℤ
  MAT : ℤ
  MF : ℤ
  MT : ℤ
  NS : ℤ
  deriving DecidableEq, Repr

/-- Field decoding of one TEXT line (`Evaluation.getTextRecord` body). -/
def textParse (line : List Char) : Except PyErr TextItems := do
  let mat ← toExc (pyInt (pySlice line 66 70))
  let mf ← toExc (pyInt (pySlice line 70 72))
  let mt ← toExc (pyInt (pySlice line 72 75))
  let ns ← toExc (pyInt (pySlice line 75 80))
  .ok ⟨line.take 66, mat, mf, mt, ns⟩

/-- `Evaluation.getTextRecord`: reads one line and decodes it. -/
def getTextRecord (s : Tape) : Except PyErr (TextItems × Tape) :=
  match textParse s.line with
  | .ok items => .ok (items, s.adv)
  | .error e => .error e

/-- Field decoding of one CONT line (`Evaluation.getContRecord` body). -/
def contParse (skipC : Bool) (line : List Char) : Except PyErr ContItems := do
  let c1 ← if skipC then .ok none else (convert (pySlice line 0 11)).map some
  let c2 ← if skipC then .ok none else (convert (pySlice line 11 22)).map some
  let l1 ← toExc (pyInt (pySlice line 22 33))
  let l2 ← toExc (pyInt (pySlice line 33 44))
  let n1 ← toExc (pyInt (pySlice line 44 55))
  let n2 ← toExc (pyInt (pySlice line 55 66))
  let mat ← toExc (pyInt (pySlice line 66 70))
  let mf ← toExc (pyInt (pySlice line 70 72))
  let mt ← toExc (pyInt (pySlice line 72 75))
  let ns ← toExc (pyInt (pySlice line 75 80))
  .ok ⟨c1, c2, l1, l2, n1, n2, mat, mf, mt, ns⟩

/-- `Evaluation.getContRecord`: reads one line and decodes it. -/
def getContRecord (skipC : Bool) (s : Tape) : Except PyErr (ContItems × Tape) :=
  match contParse skipC s.line with
  | .ok items => .ok (items, s.adv)
  | .error e => .error e

/-- Field decoding of one HEAD line (`Evaluation.getHeadRecord` body):
`ZA = int(convert(line[:11]))`, `AWR = convert(line[11:22])`. -/
def headParse (line : List Char) : Except PyErr HeadItems := do
  let za ← convert (pySlice line 0 11)
  let awr ← convert (pySlice line 11 22)
  let l1 ← toExc (pyInt (pySlice line 22 33))
  let l2 ← toExc (pyInt (pySlice line 33 44))
  let n1 ← toExc (pyInt (pySlice line 44 55))
  let n2 ← toExc (pyInt (pySlice line 55 66))
  let mat ← toExc (pyInt (pySlice line 66 70))
  let mf ← toExc (pyInt (pySlice line 70 72))
  let mt ← toExc (pyInt (pySlice line 72 75))
  let ns ← toExc (pyInt (pySlice line 75 80))
  .ok ⟨pyTrunc za, awr, l1, l2, n1, n2, mat, mf, mt, ns⟩

/-- `Evaluation.getHeadRecord`: reads one line and decodes it. -/
def getHeadRecord (s : Tape) : Except PyErr (HeadItems × Tape) :=
  match headParse s.line with
  | .ok items => .ok (items, s.adv)
  | .error e => .error e

/-- Decode `n` floating values from the front of one LIST continuation line:
`val = convert(line[0:11]); line = line[11:]`, repeated. -/
def lineFloats (line : List Char) : ℕ → Except PyErr (List PyNum)
  | 0 => .ok []
  | n + 1 =>
    match convert (pySlice line 0 11) with
    | .error e => .error e
    | .ok v =>
      match lineFloats (line.drop 11) n with
      | .error e => .error e
      | .ok rest => .ok (v :: rest)

/-- The `for i in range((NPL-1)/6 + 1)` loop of `getListRecord`: the
iteration count is passed as the fuel argument; `m` is the running count of
values already read, `toRead = min(6, NPL-m)`. -/
def listLoop (npl : ℤ) : ℤ → ℕ → Tape → Except PyErr (List PyNum × Tape)
  | _, 0, s => .ok ([], s)
  | m, f + 1, s =>
    match lineFloats s.line (min 6 (npl - m)).toNat with
    | .error e => .error e
    | .ok vs =>
      match listLoop npl (m + min 6 (npl - m)) f s.adv with
      | .error e => .error e
      | .ok (rest, s') => .ok (vs ++ rest, s')

/-- Python 2 iteration count `range((n-1)/6 + 1)` etc.: `/` is floor
division; a negative bound gives an empty range. -/
def pyRangeCount (n : ℤ) (k : ℤ) : ℕ := ((n - 1).fdiv k + 1).toNat

/-- `Evaluation.getListRecord`: one CONT record carrying `NPL = N1`, then
`ceil(NPL/6)` continuation lines of up to six values each.  The source
returns `(items, itemsList)`, or just `itemsList` when `onlyList=True`
(see `getListRecordOnly`). -/
def getListRecord (s : Tape) : Except PyErr ((ContItems × List PyNum) × Tape) :=
  match getContRecord false s with
  | .error e => .error e
  | .ok (items, s1) =>
    match listLoop items.N1 0 (pyRangeCount items.N1 6) s1 with
    | .error e => .error e
    | .ok (vals, s2) => .ok ((items, vals), s2)

/-- `Evaluation.getListRecord(onlyList=True)`: same read, values only. -/
def getListRecordOnly (s : Tape) : Except PyErr (List PyNum × Tape) :=
  match getListRecord s with
  | .error e => .error e
  | .ok ((_, vals), s') => .ok (vals, s')


/-- The `ENDFTab1Record` object: interpolation breakpoints `NBT`, schemes
`INT`, and the tabulated points `x`, `y`. -/
structure ENDFTab1Record where
  NBT : List ℤ
  INT : List ℤ
  x : List PyNum
  y : List PyNum
  deriving DecidableEq, Repr

/-- Decode `n` (NBT, INT) pairs from the front of one line:
`NBT = int(line[0:11]); INT = int(line[11:22]); line = line[22:]`. -/
def linePairsInt (line : List Char) : ℕ → Except PyErr (List (ℤ × ℤ))
  | 0 => .ok []
  | n + 1 =>
    match pyInt (pySlice line 0 11), pyInt (pySlice line 11 22) with
    | some a, some b =>
      match linePairsInt (line.drop 22) n with
      | .error e => .error e
      | .ok rest => .ok ((a, b) :: rest)
    | _, _ => .error .valueError

/-- Decode `n` (x, y) pairs from the front of one line:
`x = convert(line[:11]); y = convert(line[11:22]); line = line[22:]`. -/
def linePairsFloat (line : List Char) : ℕ → Except PyErr (List (PyNum × PyNum))
  | 0 => .ok []
  | n + 1 =>
    match convert (pySlice line 0 11) with
    | .error e => .error e
    | .ok a =>
      match convert (pySlice line 11 22) with
      | .error e => .error e
      | .ok b =>
        match linePairsFloat (line.drop 22) n with
        | .error e => .error e
        | .ok rest => .ok ((a, b) :: rest)

/-- The `for i in range((NR-1)/3 + 1)` interpolation-region loop of
`ENDFTab1Record.read`; fuel is the iteration count, `toRead = min(3, NR-m)`. -/
def nbtLoop (nr : ℤ) : ℤ → ℕ → Tape → Except PyErr (List (ℤ × ℤ) × Tape)
  | _, 0, s => .ok ([], s)
  | m, f + 1, s =>
    match linePairsInt s.line (min 3 (nr - m)).toNat with
    | .error e => .error e
    | .ok vs =>
      match nbtLoop nr (m + min 3 (nr - m)) f s.adv with
      | .error e => .error e
      | .ok (rest, s') => .ok (vs ++ rest, s')

/-- The `for i in range((NP-1)/3 + 1)` tabulated-pair loop of
`ENDFTab1Record.read`. -/
def xyLoop (np : ℤ) : ℤ → ℕ → Tape → Except PyErr (List (PyNum × PyNum) × Tape)
  | _, 0, s => .ok ([], s)
  | m, f + 1, s =>
    match linePairsFloat s.line (min 3 (np - m)).toNat with
    | .error e => .error e
    | .ok vs =>
      match xyLoop np (m + min 3 (np - m)) f s.adv with
      | .error e => .error e
      | .ok (rest, s') => .ok (vs ++ rest, s')

/-- `ENDFTab1Record.read(fh)`: one header line giving `NR = int(line[44:55])`
and `NP = int(line[55:66])`, then the two loops above. -/
def ENDFTab1Record.read (s : Tape) : Except PyErr (ENDFTab1Record × Tape) := do
  let nr ← toExc (pyInt (pySlice s.line 44 55))
  let np ← toExc (pyInt (pySlice s.line 55 66))
  match nbtLoop nr 0 (pyRangeCount nr 3) s.adv with
  | .error e => .error e
  | .ok (ri, s2) =>
    match xyLoop np 0 (pyRangeCount np 3) s2 with
    | .error e => .error e
    | .ok (xy, s3) =>
      .ok (⟨ri.map Prod.fst, ri.map Prod.snd, xy.map Prod.fst, xy.map Prod.snd⟩, s3)

/-- `Evaluation.getTab1Record`. -/
def getTab1Record (s : Tape) : Except PyErr (ENDFTab1Record × Tape) :=
  ENDFTab1Record.read s

/-- An `ENDFReaction` object: its `MT` plus whichever attributes the section
handler that created it assigned.  (Python sets these dynamically; the
source's single `value` attribute holds either a TAB1 record or a plain list
depending on the representation flag, split here into `valueTab` /
`valueList`.) -/
structure ENDFReaction where
  MT : ℤ
  LNU : Option ℤ := none
  LDG : Option ℤ := none
  coeffs : Option (ContItems × List PyNum) := none
  valueTab : Option ENDFTab1Record := none
  valueList : Option (List PyNum) := none
  decayConst : Option (List PyNum) := none
  deriving DecidableEq, Repr

/-- An `ENDFFile` object (the per-file-number subclasses of the source only
fix `fileNumber`). -/
structure ENDFFile where
  fileNumber : ℤ
  reactions : List ENDFReaction
  deriving DecidableEq, Repr

/-- The `Evaluation` document: its ordered list of files. -/
structure Evaluation where
  files : List ENDFFile
  deriving DecidableEq, Repr

/-- `Evaluation.findFile` body: `for f in self.files: if f.fileNumber ==
fileNumber: return f` — falling through returns `None`. -/
def findFileAux : List ENDFFile → ℤ → Option ENDFFile
  | [], _ => none
  | f :: fs, n => if f.fileNumber = n then some f else findFileAux fs n

/-- `Evaluation.findFile`. -/
def Evaluation.findFile (ev : Evaluation) (fileNumber : ℤ) : Option ENDFFile :=
  findFileAux ev.files fileNumber

/-- Inner loop of `Evaluation.findMT`: scan one file's reactions. -/
def findMTReactions : List ENDFReaction → ℤ → Option ENDFReaction
  | [], _ => none
  | r :: rs, mt => if r.MT = mt then some r else findMTReactions rs mt

/-- `Evaluation.findMT` body: `for f in self.files: for r in f.reactions:
if r.MT == MT: return r` — falling through returns `None`. -/
def findMTAux : List ENDFFile → ℤ → Option ENDFReaction
  | [], _ => none
  | f :: fs, mt =>
    match findMTReactions f.reactions mt with
    | some r => some r
    | none => findMTAux fs mt

/-- `Evaluation.findMT`. -/
def Evaluation.findMT (ev : Evaluation) (mt : ℤ) : Option ENDFReaction :=
  findMTAux ev.files mt

/-- `Evaluation.readTotalNu` (MT=452): HEAD record giving `LNU = items[3]`;
`LNU=1` stores `getListRecord()` in `coeffs`, `LNU=2` stores a TAB1 in
`value`; then one `self.fh.readline()` skips the SEND record.  The created
reaction (appended to file 1 in the source) is returned. -/
def readTotalNu (s : Tape) : Except PyErr (ENDFReaction × Tape) := do
  let (h, s1) ← getHeadRecord s
  let (r, s2) ←
    if h.L2 = 1 then do
      let (lr, s') ← getListRecord s1
      .ok (({ MT := 452, LNU := some h.L2, coeffs := some lr } : ENDFReaction), s')
    else if h.L2 = 2 then do
      let (t, s') ← getTab1Record s1
      .ok (({ MT := 452, LNU := some h.L2, valueTab := some t } : ENDFReaction), s')
    else
      .ok (({ MT := 452, LNU := some h.L2 } : ENDFReaction), s1)
  .ok (r, s2.adv)

/-- `Evaluation.readDelayedNu` (MT=455): HEAD record giving `LDG = items[2]`,
`LNU = items[3]`; only in the `LNU == 2 and LDG == 0` branch are the decay
constants (LIST), a TAB1 and the SEND line consumed — any other combination
reads nothing further and does not skip a SEND line. -/
def readDelayedNu (s : Tape) : Except PyErr (ENDFReaction × Tape) := do
  let (h, s1) ← getHeadRecord s
  if h.L2 = 2 ∧ h.L1 = 0 then do
    let (dc, s2) ← getListRecordOnly s1
    let (t, s3) ← getTab1Record s2
    .ok (({ MT := 455, LDG := some h.L1, LNU := some h.L2,
            decayConst := some dc, valueTab := some t } : ENDFReaction), s3.adv)
  else
    .ok (({ MT := 455, LDG := some h.L1, LNU := some h.L2 } : ENDFReaction), s1)

/-- `Evaluation.readPromptNu` (MT=456): HEAD record giving `LNU = items[3]`;
`LNU=2` reads a TAB1, `LNU=1` reads a LIST (values only); then one
`readline()` skips the SEND record. -/
def readPromptNu (s : Tape) : Except PyErr (ENDFReaction × Tape) := do
  let (h, s1) ← getHeadRecord s
  let (r, s2) ←
    if h.L2 = 2 then do
      let (t, s') ← getTab1Record s1
      .ok (({ MT := 456, LNU := some h.L2, valueTab := some t } : ENDFReaction), s')
    else if h.L2 = 1 then do
      let (vals, s') ← getListRecordOnly s1
      .ok (({ MT := 456, LNU := some h.L2, valueList := some vals } : ENDFReaction), s')
    else
      .ok (({ MT := 456, LNU := some h.L2 } : ENDFReaction), s1)
  .ok (r, s2.adv)

/-- `Evaluation.readFissionEnergy` (MT=458): reads only the HEAD record
(its items are not even stored) and returns — no section body, no SEND
line is consumed. -/
def readFissionEnergy (s : Tape) : Except PyErr (ENDFReaction × Tape) := do
  let (_, s1) ← getHeadRecord s
  .ok (({ MT := 458 } : ENDFReaction), s1)

/-- `Evaluation.readDelayedPhoton` (MT=460): reads only the HEAD record and
returns — no section body, no SEND line is consumed. -/
def readDelayedPhoton (s : Tape) : Except PyErr (ENDFReaction × Tape) := do
  let (_, s1) ← getHeadRecord s
  .ok (({ MT := 460 } : ENDFReaction), s1)

/-- The dispatch loop of `Evaluation.read` over the directory entries
`(MF, MT, NC, MOD)` (the caller drops the first entry):

    if MF == 1:
        if MT == 452: self.readTotalNu()
        elif MT == 455: self.readDelayedNu()
        elif MT == 456: self.readPromptNu()
        elif MT == 458: self.readFissionEnergy()
        elif MT == 460: self.readDelayedPhoton()

Any other pair does nothing at all: no error, no reaction, and no movement
of the file cursor.  The reactions the handlers create (appended to file 1
in the source) are collected in order. -/
def dispatchLoop : List (ℤ × ℤ × ℤ × ℤ) → Tape → Except PyErr (List ENDFReaction × Tape)
  | [], s => .ok ([], s)
  | (mf, mt, _, _) :: rest, s =>
    if mf = 1 then
      if mt = 452 then
        match readTotalNu s with
        | .error e => .error e
        | .ok (r, s') =>
          match dispatchLoop rest s' with
          | .error e => .error e
          | .ok (rs, s'') => .ok (r :: rs, s'')
      else if mt = 455 then
        match readDelayedNu s with
        | .error e => .error e
        | .ok (r, s') =>
          match dispatchLoop rest s' with
          | .error e => .error e
          | .ok (rs, s'') => .ok (r :: rs, s'')
      else if mt = 456 then
        match readPromptNu s with
        | .error e => .error e
        | .ok (r, s') =>
          match dispatchLoop rest s' with
          | .error e => .error e
          | .ok (rs, s'') => .ok (r :: rs, s'')
      else if mt = 458 then
        match readFissionEnergy s with
        | .error e => .error e
        | .ok (r, s') =>
          match dispatchLoop rest s' with
          | .error e => .error e
          | .ok (rs, s'') => .ok (r :: rs, s'')
      else if mt = 460 then
        match readDelayedPhoton s with
        | .error e => .error e
        | .ok (r, s') =>
          match dispatchLoop rest s' with
          | .error e => .error e
          | .ok (rs, s'') => .ok (r :: rs, s'')
      else dispatchLoop rest s
    else dispatchLoop rest s

/-- Right-justify a string in an 11-column ENDF field. -/
def fld (s : String) : List Char := List.replicate (11 - s.length) ' ' ++ s.toList

/-- Right-justify a string in an `n`-column field. -/
def pad (n : ℕ) (s : String) : List Char := List.replicate (n - s.length) ' ' ++ s.toList

/-- Build one 80-column card image: six 11-column fields, then MAT (4),
MF (2), MT (3), NS (5). -/
def mkLine (a b c d e f mat mf mt ns : String) : List Char :=
  fld a ++ fld b ++ fld c ++ fld d ++ fld e ++ fld f ++
    pad 4 mat ++ pad 2 mf ++ pad 3 mt ++ pad 5 ns

/-- MT=458 section head followed by its SEND line and the next section's
head: the stream for the section-end (SEND) sequencing check. -/
def c2lines : List (List Char) :=
  [ mkLine "1.000000+0" "2.000000+0" "0" "0" "0" "0" "125" "1" "458" "1",
    mkLine "" "" "0" "0" "0" "0" "125" "1" "0" "99999",
    mkLine "1.000000+0" "2.000000+0" "0" "1" "0" "0" "125" "1" "456" "1" ]

/-- A tape with a recognized MT=452 section, an unrecognized MT=999 section,
and a recognized MT=456 section, in that physical order.  The 452 section
carries the polynomial coefficients 1.5, 2.5; the 999 section carries the
values 10, 20; the 456 section carries the values 30, 40. -/
def c3lines : List (List Char) :=
  [ mkLine "1.000000+0" "2.000000+0" "0" "1" "0" "0" "125" "1" "452" "1",
    mkLine "0.000000+0" "0.000000+0" "0" "0" "2" "0" "125" "1" "452" "2",
    mkLine "1.500000+0" "2.500000+0" "" "" "" "" "125" "1" "452" "3",
    mkLine "" "" "0" "0" "0" "0" "125" "1" "0" "99999",
    mkLine "3.000000+0" "4.000000+0" "0" "1" "0" "0" "125" "1" "999" "1",
    mkLine "0.000000+0" "0.000000+0" "0" "0" "2" "0" "125" "1" "999" "2",
    mkLine "1.000000+1" "2.000000+1" "" "" "" "" "125" "1" "999" "3",
    mkLine "" "" "0" "0" "0" "0" "125" "1" "0" "99999",
    mkLine "5.000000+0" "6.000000+0" "0" "1" "0" "0" "125" "1" "456" "1",
    mkLine "0.000000+0" "0.000000+0" "0" "0" "2" "0" "125" "1" "456" "2",
    mkLine "3.000000+1" "4.000000+1" "" "" "" "" "125" "1" "456" "3",
    mkLine "" "" "0" "0" "0" "0" "125" "1" "0" "99999" ]

/-- A LIST record with NPL=8: its CONT line, one full 6-value line, and one
2-value line (values 1 to 8 in order). -/
def c4lines : List (List Char) :=
  [ mkLine "0.000000+0" "0.000000+0" "0" "0" "8" "0" "125" "1" "455" "2",
    mkLine "1.000000+0" "2.000000+0" "3.000000+0" "4.000000+0" "5.000000+0" "6.000000+0"
      "125" "1" "455" "3",
    mkLine "7.000000+0" "8.000000+0" "" "" "" "" "125" "1" "455" "4" ]

/-- A TAB1 record with NR=2, NP=2 whose NBT sequence is [5, 3]: decreasing,
and its last entry differs from NP. -/
def c5lines : List (List Char) :=
  [ mkLine "" "" "" "" "2" "2" "125" "1" "452" "1",
    mkLine "5" "2" "3" "2" "" "" "125" "1" "452" "2",
    mkLine "1.000000+0" "2.000000+0" "3.000000+0" "4.000000+0" "" "" "125" "1" "452" "3" ]

/-- A TAB1 record with NR=1, NP=1: header line, one region line, one pair
line — three physical lines in total. -/
def c6lines : List (List Char) :=
  [ mkLine "" "" "" "" "1" "1" "125" "1" "452" "1",
    mkLine "7" "3" "" "" "" "" "125" "1" "452" "2",
    mkLine "5.000000+0" "6.000000+0" "" "" "" "" "125" "1" "452" "3" ]

/-- A TAB1 record with NR=1, NP=2 truncated by removing its final
continuation line (the (x,y) line). -/
def c8lines : List (List Char) :=
  [ mkLine "" "" "" "" "1" "2" "125" "1" "452" "1",
    mkLine "1" "2" "" "" "" "" "125" "1" "452" "2" ]

/-! ### Counting helpers -/

lemma pyRangeCount_six (n : ℤ) : pyRangeCount n 6 = (n.toNat + 5) / 6 := by
  unfold pyRangeCount
  rw [Int.fdiv_eq_ediv _ (by norm_num)]
  omega

lemma pyRangeCount_three (n : ℤ) : pyRangeCount n 3 = (n.toNat + 2) / 3 := by
  unfold pyRangeCount
  rw [Int.fdiv_eq_ediv _ (by norm_num)]
  omega

lemma lineFloats_length : ∀ (n : ℕ) (line : List Char) (vs : List PyNum),
    lineFloats line n = .ok vs → vs.length = n := by
  intro n
  induction n with
  | zero =>
    intro line vs h
    simp only [lineFloats] at h
    cases h
    rfl
  | succ n ih =>
    intro line vs h
    simp only [lineFloats] at h
    cases hc : convert (pySlice line 0 11) with
    | error e => rw [hc] at h; cases h
    | ok v =>
      rw [hc] at h
      cases hr : lineFloats (line.drop 11) n with
      | error e => rw [hr] at h; cases h
      | ok rest =>
        rw [hr] at h
        cases h
        simp [ih _ _ hr]

lemma linePairsInt_length : ∀ (n : ℕ) (line : List Char) (vs : List (ℤ × ℤ)),
    linePairsInt line n = .ok vs → vs.length = n := by
  intro n
  induction n with
  | zero =>
    intro line vs h
    simp only [linePairsInt] at h
    cases h
    rfl
  | succ n ih =>
    intro line vs h
    simp only [linePairsInt] at h
    cases ha : pyInt (pySlice line 0 11) with
    | none => rw [ha] at h; cases h
    | some a =>
      cases hb : pyInt (pySlice line 11 22) with
      | none => rw [ha, hb] at h; cases h
      | some b =>
        rw [ha, hb] at h
        cases hr : linePairsInt (line.drop 22) n with
        | error e => rw [hr] at h; cases h
        | ok rest =>
          rw [hr] at h
          cases h
          simp [ih _ _ hr]

lemma linePairsFloat_length : ∀ (n : ℕ) (line : List Char) (vs : List (PyNum × PyNum)),
    linePairsFloat line n = .ok vs → vs.length = n := by
  intro n
  induction n with
  | zero =>
    intro line vs h
    simp only [linePairsFloat] at h
    cases h
    rfl
  | succ n ih =>
    intro line vs h
    simp only [linePairsFloat] at h
    cases ha : convert (pySlice line 0 11) with
    | error e => rw [ha] at h; cases h
    | ok a =>
      rw [ha] at h
      cases hb : convert (pySlice line 11 22) with
      | error e => rw [hb] at h; cases h
      | ok b =>
        rw [hb] at h
        cases hr : linePairsFloat (line.drop 22) n with
        | error e => rw [hr] at h; cases h
        | ok rest =>
          rw [hr] at h
          cases h
          simp [ih _ _ hr]

lemma listLoop_spec : ∀ (f : ℕ) (npl m : ℤ) (s : Tape) (vals : List PyNum) (s' : Tape),
    listLoop npl m f s = .ok (vals, s') →
    (vals.length : ℤ) = max 0 (min (6 * (f : ℤ)) (npl - m)) ∧
      s'.lines = s.lines ∧ s'.pos = s.pos + f := by
  intro f
  induction f with
  | zero =>
    intro npl m s vals s' h
    simp only [listLoop] at h
    cases h
    refine ⟨?_, rfl, rfl⟩
    simp
  | succ f ih =>
    intro npl m s vals s' h
    simp only [listLoop] at h
    cases hl : lineFloats s.line (min 6 (npl - m)).toNat with
    | error e => rw [hl] at h; cases h
    | ok vs =>
      rw [hl] at h
      cases hr : listLoop npl (m + min 6 (npl - m)) f s.adv with
      | error e => rw [hr] at h; cases h
      | ok p =>
        obtain ⟨rest, s2⟩ := p
        rw [hr] at h
        cases h
        have hlen := lineFloats_length _ _ _ hl
        obtain ⟨h1, h2, h3⟩ := ih _ _ _ _ _ hr
        refine ⟨?_, by simpa [Tape.adv] using h2, by simp [Tape.adv] at h3; omega⟩
        have : (vs ++ rest).length = vs.length + rest.length := List.length_append _ _
        push_cast [this, hlen]
        omega

lemma nbtLoop_spec : ∀ (f : ℕ) (nr m : ℤ) (s : Tape) (vals : List (ℤ × ℤ)) (s' : Tape),
    nbtLoop nr m f s = .ok (vals, s') →
    (vals.length : ℤ) = max 0 (min (3 * (f : ℤ)) (nr - m)) ∧
      s'.lines = s.lines ∧ s'.pos = s.pos + f := by
  intro f
  induction f with
  | zero =>
    intro nr m s vals s' h
    simp only [nbtLoop] at h
    cases h
    refine ⟨?_, rfl, rfl⟩
    simp
  | succ f ih =>
    intro nr m s vals s' h
    simp only [nbtLoop] at h
    cases hl : linePairsInt s.line (min 3 (nr - m)).toNat with
    | error e => rw [hl] at h; cases h
    | ok vs =>
      rw [hl] at h
      cases hr : nbtLoop nr (m + min 3 (nr - m)) f s.adv with
      | error e => rw [hr] at h; cases h
      | ok p =>
        obtain ⟨rest, s2⟩ := p
        rw [hr] at h
        cases h
        have hlen := linePairsInt_length _ _ _ hl
        obtain ⟨h1, h2, h3⟩ := ih _ _ _ _ _ hr
        refine ⟨?_, by simpa [Tape.adv] using h2, by simp [Tape.adv] at h3; omega⟩
        have : (vs ++ rest).length = vs.length + rest.length := List.length_append _ _
        push_cast [this, hlen]
        omega

lemma xyLoop_spec : ∀ (f : ℕ) (np m : ℤ) (s : Tape) (vals : List (PyNum × PyNum)) (s' : Tape),
    xyLoop np m f s = .ok (vals, s') →
    (vals.length : ℤ) = max 0 (min (3 * (f : ℤ)) (np - m)) ∧
      s'.lines = s.lines ∧ s'.pos = s.pos + f := by
  intro f
  induction f with
  | zero =>
    intro np m s vals s' h
    simp only [xyLoop] at h
    cases h
    refine ⟨?_, rfl, rfl⟩
    simp
  | succ f ih =>
    intro np m s vals s' h
    simp only [xyLoop] at h
    cases hl : linePairsFloat s.line (min 3 (np - m)).toNat with
    | error e => rw [hl] at h; cases h
    | ok vs =>
      rw [hl] at h
      cases hr : xyLoop np (m + min 3 (np - m)) f s.adv with
      | error e => rw [hr] at h; cases h
      | ok p =>
        obtain ⟨rest, s2⟩ := p
        rw [hr] at h
        cases h
        have hlen := linePairsFloat_length _ _ _ hl
        obtain ⟨h1, h2, h3⟩ := ih _ _ _ _ _ hr
        refine ⟨?_, by simpa [Tape.adv] using h2, by simp [Tape.adv] at h3; omega⟩
        have : (vs ++ rest).length = vs.length + rest.length := List.length_append _ _
        push_cast [this, hlen]
        omega

/-! ### Single-line record readers advance by exactly one line -/

lemma getTextRecord_adv (s : Tape) (r : TextItems) (s' : Tape)
    (h : getTextRecord s = .ok (r, s')) : s' = s.adv := by
  unfold getTextRecord at h
  cases hp : textParse s.line with
  | error e => rw [hp] at h; cases h
  | ok items => rw [hp] at h; cases h; rfl

lemma getContRecord_adv (b : Bool) (s : Tape) (r : ContItems) (s' : Tape)
    (h : getContRecord b s = .ok (r, s')) : s' = s.adv ∧ contParse b s.line = .ok r := by
  unfold getContRecord at h
  cases hp : contParse b s.line with
  | error e => rw [hp] at h; cases h
  | ok items => rw [hp] at h; cases h; exact ⟨rfl, rfl⟩

lemma getHeadRecord_adv (s : Tape) (r : HeadItems) (s' : Tape)
    (h : getHeadRecord s = .ok (r, s')) : s' = s.adv := by
  unfold getHeadRecord at h
  cases hp : headParse s.line with
  | error e => rw [hp] at h; cases h
  | ok items => rw [hp] at h; cases h; rfl

/-! ### LIST record -/

lemma getListRecord_spec (s : Tape) (r : ContItems × List PyNum) (s' : Tape)
    (h : getListRecord s = .ok (r, s')) :
    s'.lines = s.lines ∧ s'.pos = s.pos + 1 + (r.1.N1.toNat + 5) / 6 ∧
      (0 ≤ r.1.N1 → (r.2.length : ℤ) = r.1.N1) := by
  unfold getListRecord at h
  cases hc : getContRecord false s with
  | error e => rw [hc] at h; cases h
  | ok p =>
    obtain ⟨items, s1⟩ := p
    rw [hc] at h
    dsimp only at h
    cases hl : listLoop items.N1 0 (pyRangeCount items.N1 6) s1 with
    | error e => rw [hl] at h; cases h
    | ok q =>
      obtain ⟨vals, s2⟩ := q
      rw [hl] at h
      cases h
      obtain ⟨hadv, -⟩ := getContRecord_adv _ _ _ _ hc
      obtain ⟨h1, h2, h3⟩ := listLoop_spec _ _ _ _ _ _ hl
      subst hadv
      rw [pyRangeCount_six] at h3
      refine ⟨by simpa [Tape.adv] using h2, by simp [Tape.adv] at h3 ⊢; omega, ?_⟩
      intro hn
      dsimp only at hn ⊢
      rw [pyRangeCount_six] at h1
      have hdiv : items.N1.toNat ≤ 6 * ((items.N1.toNat + 5) / 6) := by omega
      omega

/-! ### TAB1 record -/

lemma tab1_read_unfold (s : Tape) :
    ENDFTab1Record.read s =
      (match pyInt (pySlice s.line 44 55), pyInt (pySlice s.line 55 66) with
        | some nr, some np =>
          (match nbtLoop nr 0 (pyRangeCount nr 3) s.adv with
            | .error e => .error e
            | .ok (ri, s2) =>
              match xyLoop np 0 (pyRangeCount np 3) s2 with
              | .error e => .error e
              | .ok (xy, s3) =>
                .ok (⟨ri.map Prod.fst, ri.map Prod.snd, xy.map Prod.fst, xy.map Prod.snd⟩, s3))
        | none, _ => .error .valueError
        | some _, none => .error .valueError) := by
  unfold ENDFTab1Record.read
  cases pyInt (pySlice s.line 44 55) <;> cases pyInt (pySlice s.line 55 66) <;> rfl

lemma tab1_read_spec (s : Tape) (t : ENDFTab1Record) (s' : Tape) (nr np : ℤ)
    (hnr : pyInt (pySlice s.line 44 55) = some nr)
    (hnp : pyInt (pySlice s.line 55 66) = some np)
    (h : ENDFTab1Record.read s = .ok (t, s')) :
    s'.lines = s.lines ∧ s'.pos = s.pos + 1 + ((nr.toNat + 2) / 3 + (np.toNat + 2) / 3) ∧
      (0 ≤ nr → t.NBT.length = nr.toNat ∧ t.INT.length = nr.toNat) ∧
      (0 ≤ np → t.x.length = np.toNat ∧ t.y.length = np.toNat) := by
  rw [tab1_read_unfold, hnr, hnp] at h
  dsimp only at h
  cases hR : nbtLoop nr 0 (pyRangeCount nr 3) s.adv with
  | error e => rw [hR] at h; cases h
  | ok p =>
    obtain ⟨ri, s2⟩ := p
    rw [hR] at h
    dsimp only at h
    cases hP : xyLoop np 0 (pyRangeCount np 3) s2 with
    | error e => rw [hP] at h; cases h
    | ok q =>
      obtain ⟨xy, s3⟩ := q
      rw [hP] at h
      cases h
      obtain ⟨hR1, hR2, hR3⟩ := nbtLoop_spec _ _ _ _ _ _ hR
      obtain ⟨hP1, hP2, hP3⟩ := xyLoop_spec _ _ _ _ _ _ hP
      rw [pyRangeCount_three] at hR1 hR3 hP1 hP3
      constructor
      · rw [hP2, hR2]
        rfl
      constructor
      · simp [Tape.adv] at hR3 ⊢
        omega
      constructor
      · intro hnn
        have hdiv : nr.toNat ≤ 3 * ((nr.toNat + 2) / 3) := by omega
        simp only [List.length_map]
        omega
      · intro hnn
        have hdiv : np.toNat ≤ 3 * ((np.toNat + 2) / 3) := by omega
        simp only [List.length_map]
        omega

/-! ### Reading past the end of the stream -/

lemma convert_nil : convert [] = .error .indexError := by decide

lemma pyInt_nil : pyInt [] = none := by decide

lemma linePairsFloat_nil (n : ℕ) : linePairsFloat [] (n + 1) = .error .indexError := rfl

lemma linePairsInt_nil (n : ℕ) : linePairsInt [] (n + 1) = .error .valueError := rfl

lemma line_of_past_end (s : Tape) (h : s.lines.length ≤ s.pos) : s.line = [] := by
  unfold Tape.line
  exact List.getD_eq_default _ _ h

lemma nbtLoop_bounded : ∀ (f : ℕ) (nr m : ℤ) (s : Tape) (vs : List (ℤ × ℤ)) (s' : Tape),
    (f = 0 ∨ 3 * ((f : ℤ) - 1) < nr - m) → s.pos ≤ s.lines.length →
    nbtLoop nr m f s = .ok (vs, s') → s'.pos ≤ s.lines.length := by
  intro f
  induction f with
  | zero =>
    intro nr m s vs s' _ hle h
    simp only [nbtLoop] at h
    cases h
    exact hle
  | succ f ih =>
    intro nr m s vs s' hinv hle h
    simp only [nbtLoop] at h
    have htr : 1 ≤ (min 3 (nr - m)).toNat := by omega
    have hlt : s.pos < s.lines.length := by
      by_contra hc
      have hnil : s.line = [] := line_of_past_end s (by omega)
      obtain ⟨k, hk⟩ : ∃ k, (min 3 (nr - m)).toNat = k + 1 :=
        ⟨(min 3 (nr - m)).toNat - 1, by omega⟩
      rw [hnil, hk, linePairsInt_nil] at h
      cases h
    cases hl : linePairsInt s.line (min 3 (nr - m)).toNat with
    | error e => rw [hl] at h; cases h
    | ok vs1 =>
      rw [hl] at h
      cases hr : nbtLoop nr (m + min 3 (nr - m)) f s.adv with
      | error e => rw [hr] at h; cases h
      | ok p =>
        obtain ⟨rest, s2⟩ := p
        rw [hr] at h
        have hb : s2.pos ≤ s.adv.lines.length := by
          refine ih _ _ _ _ _ ?_ ?_ hr
          · omega
          · simp [Tape.adv]; omega
        cases h
        simpa [Tape.adv] using hb

lemma xyLoop_bounded : ∀ (f : ℕ) (np m : ℤ) (s : Tape) (vs : List (PyNum × PyNum)) (s' : Tape),
    (f = 0 ∨ 3 * ((f : ℤ) - 1) < np - m) → s.pos ≤ s.lines.length →
    xyLoop np m f s = .ok (vs, s') → s'.pos ≤ s.lines.length := by
  intro f
  induction f with
  | zero =>
    intro np m s vs s' _ hle h
    simp only [xyLoop] at h
    cases h
    exact hle
  | succ f ih =>
    intro np m s vs s' hinv hle h
    simp only [xyLoop] at h
    have htr : 1 ≤ (min 3 (np - m)).toNat := by omega
    have hlt : s.pos < s.lines.length := by
      by_contra hc
      have hnil : s.line = [] := line_of_past_end s (by omega)
      obtain ⟨k, hk⟩ : ∃ k, (min 3 (np - m)).toNat = k + 1 :=
        ⟨(min 3 (np - m)).toNat - 1, by omega⟩
      rw [hnil, hk, linePairsFloat_nil] at h
      cases h
    cases hl : linePairsFloat s.line (min 3 (np - m)).toNat with
    | error e => rw [hl] at h; cases h
    | ok vs1 =>
      rw [hl] at h
      cases hr : xyLoop np (m + min 3 (np - m)) f s.adv with
      | error e => rw [hr] at h; cases h
      | ok p =>
        obtain ⟨rest, s2⟩ := p
        rw [hr] at h
        have hb : s2.pos ≤ s.adv.lines.length := by
          refine ih _ _ _ _ _ ?_ ?_ hr
          · omega
          · simp [Tape.adv]; omega
        cases h
        simpa [Tape.adv] using hb

lemma tab1_read_bounded (s : Tape) (t : ENDFTab1Record) (s' : Tape)
    (h : ENDFTab1Record.read s = .ok (t, s')) : s'.pos ≤ s.lines.length := by
  rw [tab1_read_unfold] at h
  cases hnr : pyInt (pySlice s.line 44 55) with
  | none => rw [hnr] at h; cases h
  | some nr =>
    rw [hnr] at h
    cases hnp : pyInt (pySlice s.line 55 66) with
    | none => rw [hnp] at h; cases h
    | some np =>
      rw [hnp] at h
      dsimp only at h
      have hlt : s.pos < s.lines.length := by
        by_contra hc
        have hnil : s.line = [] := line_of_past_end s (by omega)
        rw [hnil] at hnr
        rw [show pySlice ([] : List Char) 44 55 = [] from rfl, pyInt_nil] at hnr
        cases hnr
      cases hR : nbtLoop nr 0 (pyRangeCount nr 3) s.adv with
      | error e => rw [hR] at h; cases h
      | ok p =>
        obtain ⟨ri, s2⟩ := p
        rw [hR] at h
        dsimp only at h
        have hs2 : s2.pos ≤ s.lines.length := by
          have := nbtLoop_bounded (pyRangeCount nr 3) nr 0 s.adv ri s2 ?_ ?_ hR
          · simpa [Tape.adv] using this
          · rw [pyRangeCount_three]
            omega
          · simp [Tape.adv]
            omega
        cases hP : xyLoop np 0 (pyRangeCount np 3) s2 with
        | error e => rw [hP] at h; cases h
        | ok q =>
          obtain ⟨xy, s3⟩ := q
          rw [hP] at h
          cases h
          have hlines : s2.lines = s.lines := by
            obtain ⟨-, h2, -⟩ := nbtLoop_spec _ _ _ _ _ _ hR
            simpa [Tape.adv] using h2
          have := xyLoop_bounded (pyRangeCount np 3) np 0 s2 xy s' ?_ ?_ hP
          · rwa [hlines] at this
          · rw [pyRangeCount_three]
            omega
          · rw [hlines]
            exact hs2

/-! ### Decomposition of the exponent-suffix branch of `convert` -/

/-- Signed value of the one-digit exponent suffix `sgn d`. -/
def expVal (sgn d : Char) : ℤ :=
  if sgn = '-' then -((d.toNat - 48 : ℕ) : ℤ) else ((d.toNat - 48 : ℕ) : ℤ)

lemma trimLeft_of_head (c : Char) (t : List Char) (h : ¬(c = ' ')) :
    trimLeft (c :: t) = c :: t := by
  simp [trimLeft, List.dropWhile_cons, h]

lemma dropWhile_length_le (p : Char → Bool) : ∀ l : List Char,
    (l.dropWhile p).length ≤ l.length := by
  intro l
  induction l with
  | nil => simp
  | cons c t ih =>
    rw [List.dropWhile_cons]
    by_cases h : p c = true
    · rw [if_pos h]
      exact le_trans ih (by simp)
    · rw [if_neg h]

lemma trimLeft_eq_self_head (c : Char) (t : List Char)
    (h : trimLeft (c :: t) = c :: t) : ¬(c = ' ') := by
  intro he
  subst he
  simp only [trimLeft, List.dropWhile_cons, decide_True, if_true] at h
  have := dropWhile_length_le (· = ' ') t
  rw [h] at this
  simp at this

lemma parseUnsigned_trimLeft : ∀ (l : List Char) (u : ℕ × ℕ × ℕ),
    parseUnsigned l = some u → trimLeft l = l := by
  intro l u h
  match l with
  | [] => rfl
  | c :: t =>
    refine trimLeft_of_head c t ?_
    intro he
    subst he
    have hnone : parseUnsigned (' ' :: t) = none := rfl
    rw [hnone] at h
    cases h

lemma parseMantissa_trimLeft : ∀ (l : List Char) (u : Bool × ℕ × ℕ × ℕ),
    parseMantissa l = some u → trimLeft l = l := by
  intro l u h
  match l with
  | [] =>
    rw [show parseMantissa [] = none from rfl] at h
    cases h
  | '+' :: t => exact trimLeft_of_head _ _ (by decide)
  | '-' :: t => exact trimLeft_of_head _ _ (by decide)
  | c :: t =>
    by_cases hp : c = '+'
    · subst hp; exact trimLeft_of_head _ _ (by decide)
    by_cases hm : c = '-'
    · subst hm; exact trimLeft_of_head _ _ (by decide)
    have hu : parseMantissa (c :: t) = (parseUnsigned (c :: t)).map (fun u => (false, u)) := by
      simp only [parseMantissa]
      split
      · next heq => rw [List.cons.injEq] at heq; exact absurd heq.1 hp
      · next heq => rw [List.cons.injEq] at heq; exact absurd heq.1 hm
      · rfl
    rw [hu] at h
    cases hq : parseUnsigned (c :: t) with
    | none => rw [hq] at h; cases h
    | some v => exact parseUnsigned_trimLeft _ _ hq

lemma trimLeft_append_spaces : ∀ (sp l : List Char),
    (∀ c ∈ sp, c = ' ') → trimLeft l = l → trimLeft (sp ++ l) = l := by
  intro sp
  induction sp with
  | nil => intro l _ hl; simpa using hl
  | cons c t ih =>
    intro l hsp hl
    have hc : c = ' ' := hsp c (by simp)
    subst hc
    show trimLeft (' ' :: (t ++ l)) = l
    simp only [trimLeft, List.dropWhile_cons, if_pos rfl]
    exact ih l (fun x hx => hsp x (by simp [hx])) hl

lemma trimRight_snoc (l : List Char) (c : Char) (h : ¬(c = ' ')) :
    trimRight (l ++ [c]) = l ++ [c] := by
  simp [trimRight, List.dropWhile_cons, h]

lemma isDigit_ne_space (c : Char) (h : c.isDigit = true) : ¬(c = ' ') := by
  intro he
  subst he
  cases h

lemma takeWhile_all_append (l r : List Char) (hl : l.all notExpChar = true) :
    (l ++ 'e' :: r).takeWhile notExpChar = l ∧
      (l ++ 'e' :: r).dropWhile notExpChar = 'e' :: r := by
  induction l with
  | nil => constructor <;> rfl
  | cons c t ih =>
    simp only [List.all_cons, Bool.and_eq_true] at hl
    obtain ⟨hc, ht⟩ := hl
    obtain ⟨ih1, ih2⟩ := ih ht
    constructor
    · simpa [List.takeWhile_cons, hc] using ih1
    · simpa [List.dropWhile_cons, hc] using ih2

lemma parseExp_pair (sgn d : Char) (hsgn : sgn = '+' ∨ sgn = '-')
    (hd : d.isDigit = true) : parseExp [sgn, d] = some (expVal sgn d) := by
  rcases hsgn with h | h <;> subst h <;>
    simp [parseExp, expVal, digitsVal, hd]

lemma parseFloatLit_append_exp (core : List Char) (sgn d : Char)
    (b : Bool) (ip fp fl : ℕ)
    (hne : core.all notExpChar = true)
    (hm : parseMantissa core = some (b, ip, fp, fl))
    (hsgn : sgn = '+' ∨ sgn = '-') (hd : d.isDigit = true) :
    parseFloatLit (core ++ ['e', sgn, d]) = some ⟨b, ip, fp, fl, expVal sgn d⟩ := by
  obtain ⟨h1, h2⟩ := takeWhile_all_append core [sgn, d] hne
  simp only [parseFloatLit, h1, h2, hm, parseExp_pair sgn d hsgn hd]

lemma convert_suffix (sp core : List Char) (sgn d : Char) (b : Bool) (ip fp fl : ℕ)
    (hsp : ∀ c ∈ sp, c = ' ')
    (hm : parseMantissa core = some (b, ip, fp, fl))
    (hne : core.all notExpChar = true)
    (hsgn : sgn = '+' ∨ sgn = '-')
    (hd : d.isDigit = true) :
    convert ((sp ++ core) ++ [sgn, d]) = .ok ⟨b, ip, fp, fl, expVal sgn d⟩ := by
  have hlen : ((sp ++ core) ++ [sgn, d]).length = (sp ++ core).length + 2 := by
    simp
    omega
  have hcore_ne : core ≠ [] := by
    intro he
    subst he
    rw [show parseMantissa [] = none from rfl] at hm
    cases hm
  obtain ⟨ch, ct, hcc⟩ : ∃ ch ct, core = ch :: ct := by
    cases core with
    | nil => exact absurd rfl hcore_ne
    | cons a l => exact ⟨a, l, rfl⟩
  have hhead : ¬(ch = ' ') := by
    apply trimLeft_eq_self_head ch ct
    rw [← hcc]
    exact parseMantissa_trimLeft core _ hm
  have hsub : (sp ++ core).length + 2 - 2 = (sp ++ core).length := by omega
  have h2 : ¬(((sp ++ core) ++ [sgn, d]).length < 2) := by
    simp
    omega
  have hgetD : ((sp ++ core) ++ [sgn, d]).getD (((sp ++ core) ++ [sgn, d]).length - 2) ' ' = sgn := by
    rw [hlen, hsub, List.getD_append_right _ _ _ _ (le_refl _)]
    simp
  have htake :
      ((sp ++ core) ++ [sgn, d]).take (((sp ++ core) ++ [sgn, d]).length - 2) = sp ++ core := by
    rw [hlen, hsub, List.take_left]
  have hdrop :
      ((sp ++ core) ++ [sgn, d]).drop (((sp ++ core) ++ [sgn, d]).length - 2) = [sgn, d] := by
    rw [hlen, hsub, List.drop_left]
  have hfloat : pyFloat ((sp ++ core) ++ 'e' :: [sgn, d]) = some ⟨b, ip, fp, fl, expVal sgn d⟩ := by
    have e1 : (sp ++ core) ++ 'e' :: [sgn, d] = (sp ++ (core ++ ['e', sgn])) ++ [d] := by simp
    have e2 : trimRight ((sp ++ (core ++ ['e', sgn])) ++ [d]) = (sp ++ (core ++ ['e', sgn])) ++ [d] :=
      trimRight_snoc _ _ (isDigit_ne_space d hd)
    have e3 : (sp ++ (core ++ ['e', sgn])) ++ [d] = sp ++ (core ++ ['e', sgn, d]) := by simp
    have e4 : trimLeft (sp ++ (core ++ ['e', sgn, d])) = core ++ ['e', sgn, d] := by
      refine trimLeft_append_spaces sp _ hsp ?_
      rw [hcc]
      simpa using trimLeft_of_head ch (ct ++ ['e', sgn, d]) hhead
    rw [pyFloat, e1, e2, e3, e4]
    exact parseFloatLit_append_exp core sgn d b ip fp fl hne hm hsgn hd
  unfold convert
  rw [if_neg h2]
  simp only [hgetD, htake, hdrop, hsgn, hfloat]
  simp

lemma toRat_exp (b : Bool) (ip fp fl : ℕ) (e : ℤ) :
    toRat ⟨b, ip, fp, fl, e⟩ = toRat ⟨b, ip, fp, fl, 0⟩ * 10 ^ e := by
  simp only [toRat]
  ring

/-! ### `findFile` / `findMT` as first-match searches -/

lemma findFileAux_eq (fs : List ENDFFile) (n : ℤ) :
    findFileAux fs n = fs.find? (fun f => decide (f.fileNumber = n)) := by
  induction fs with
  | nil => rfl
  | cons f t ih =>
    simp only [findFileAux, List.find?_cons]
    by_cases h : f.fileNumber = n
    · simp [h]
    · simp [h, ih]

lemma findMTReactions_eq (rs : List ENDFReaction) (mt : ℤ) :
    findMTReactions rs mt = rs.find? (fun r => decide (r.MT = mt)) := by
  induction rs with
  | nil => rfl
  | cons r t ih =>
    simp only [findMTReactions, List.find?_cons]
    by_cases h : r.MT = mt
    · simp [h]
    · simp [h, ih]

lemma findMTAux_eq (fs : List ENDFFile) (mt : ℤ) :
    findMTAux fs mt = ((fs.map ENDFFile.reactions).flatten).find? (fun r => decide (r.MT = mt)) := by
  induction fs with
  | nil => rfl
  | cons f t ih =>
    simp only [findMTAux, findMTReactions_eq, ih, List.map_cons, List.flatten_cons,
      List.find?_append]
    cases List.find? (fun r => decide (r.MT = mt)) f.reactions <;> simp

/-! ### The dispatcher ignores unrecognized directory entries -/

lemma dispatchLoop_skip (mf mt nc md : ℤ) (rest : List (ℤ × ℤ × ℤ × ℤ)) (s : Tape)
    (h : ¬(mf = 1 ∧ (mt = 452 ∨ mt = 455 ∨ mt = 456 ∨ mt = 458 ∨ mt = 460))) :
    dispatchLoop ((mf, mt, nc, md) :: rest) s = dispatchLoop rest s := by
  simp only [dispatchLoop]
  by_cases h1 : mf = 1
  · have h452 : ¬(mt = 452) := fun hc => h ⟨h1, Or.inl hc⟩
    have h455 : ¬(mt = 455) := fun hc => h ⟨h1, Or.inr (Or.inl hc)⟩
    have h456 : ¬(mt = 456) := fun hc => h ⟨h1, Or.inr (Or.inr (Or.inl hc))⟩
    have h458 : ¬(mt = 458) := fun hc => h ⟨h1, Or.inr (Or.inr (Or.inr (Or.inl hc)))⟩
    have h460 : ¬(mt = 460) := fun hc => h ⟨h1, Or.inr (Or.inr (Or.inr (Or.inr hc)))⟩
    rw [if_pos h1, if_neg h452, if_neg h455, if_neg h456, if_neg h458, if_neg h460]
  · rw [if_neg h1]

/-! ## Claim theorems -/

/-- C1: for every slot whose second-to-last character is `+` or `-` (made of
optional leading spaces, a plain decimal mantissa and the two-character
suffix), `convert` splits off the two-character exponent suffix and returns
mantissa * 10^exponent; in particular the slot `" 1.23456+5"` decodes to
123456.0 and the slot `"-2.5     "` decodes to -2.5. -/
theorem claim_convert_exponent_suffix :
    (∀ (sp core : List Char) (sgn d : Char) (b : Bool) (ip fp fl : ℕ),
       (∀ c ∈ sp, c = ' ') →
       parseMantissa core = some (b, ip, fp, fl) →
       core.all notExpChar = true →
       (sgn = '+' ∨ sgn = '-') →
       d.isDigit = true →
       convertVal ((sp ++ core) ++ [sgn, d]) =
         .ok (toRat ⟨b, ip, fp, fl, 0⟩ * 10 ^ expVal sgn d)) ∧
    convertVal " 1.23456+5".toList = .ok 123456 ∧
    convertVal "-2.5     ".toList = .ok (-2.5) := by
  refine ⟨?_, ?_, ?_⟩
  · intro sp core sgn d b ip fp fl hsp hm hne hsgn hd
    unfold convertVal
    rw [convert_suffix sp core sgn d b ip fp fl hsp hm hne hsgn hd]
    show Except.ok (toRat ⟨b, ip, fp, fl, expVal sgn d⟩) = _
    rw [toRat_exp]
  · unfold convertVal
    rw [show convert " 1.23456+5".toList = .ok ⟨false, 1, 23456, 5, 5⟩ from by decide]
    show Except.ok (toRat ⟨false, 1, 23456, 5, 5⟩) = _
    norm_num [toRat]
  · unfold convertVal
    rw [show convert "-2.5     ".toList = .ok ⟨true, 2, 5, 1, 0⟩ from by decide]
    show Except.ok (toRat ⟨true, 2, 5, 1, 0⟩) = _
    norm_num [toRat]

/-- Witness for C1: the general branch applied to the 11-column slot
`" 1.234567+5"`. -/
theorem claim_convert_exponent_suffix_witness :
    convertVal (([' '] ++ ['1', '.', '2', '3', '4', '5', '6', '7']) ++ ['+', '5']) =
      .ok (toRat ⟨false, 1, 234567, 6, 0⟩ * 10 ^ expVal '+' '5') :=
  claim_convert_exponent_suffix.1 [' '] ['1', '.', '2', '3', '4', '5', '6', '7'] '+' '5'
    false 1 234567 6 (by decide) (by decide) (by decide) (Or.inl rfl) (by decide)

/-- The CONT items of the NPL=8 LIST record of `c4lines`. -/
def c4items : ContItems :=
  ⟨some ⟨false, 0, 0, 6, 0⟩, some ⟨false, 0, 0, 6, 0⟩, 0, 0, 8, 0, 125, 1, 455, 2⟩

/-- The eight decoded values of the NPL=8 LIST record of `c4lines`. -/
def c4vals : List PyNum :=
  [⟨false, 1, 0, 6, 0⟩, ⟨false, 2, 0, 6, 0⟩, ⟨false, 3, 0, 6, 0⟩, ⟨false, 4, 0, 6, 0⟩,
   ⟨false, 5, 0, 6, 0⟩, ⟨false, 6, 0, 6, 0⟩, ⟨false, 7, 0, 6, 0⟩, ⟨false, 8, 0, 6, 0⟩]

/-- C4: a successful `getListRecord` returns exactly NPL decoded values
(NPL = the `N1` field of its CONT record, NPL >= 0), however unevenly NPL
divides by 6; in particular the NPL=8 record of `c4lines` (one 6-value line
plus one 2-value line) decodes to exactly the eight values 1..8 in stream
order. -/
theorem claim_list_record_count :
    (∀ (s : Tape) (r : ContItems × List PyNum) (s' : Tape),
       getListRecord s = .ok (r, s') → 0 ≤ r.1.N1 → (r.2.length : ℤ) = r.1.N1) ∧
    getListRecord ⟨c4lines, 0⟩ = .ok ((c4items, c4vals), ⟨c4lines, 3⟩) ∧
    c4vals.map toRat = [1, 2, 3, 4, 5, 6, 7, 8] := by
  refine ⟨?_, by decide, ?_⟩
  · intro s r s' h h0
    exact (getListRecord_spec s r s' h).2.2 h0
  · simp [c4vals, toRat]

/-- Witness for C4: the count branch applied to the concrete NPL=8 record. -/
theorem claim_list_record_count_witness :
    ((c4vals.length : ℤ) = c4items.N1) :=
  claim_list_record_count.1 ⟨c4lines, 0⟩ (c4items, c4vals) ⟨c4lines, 3⟩ (by decide) (by decide)

/-- The TAB1 record decoded from `c5lines`. -/
def c5tab : ENDFTab1Record :=
  ⟨[5, 3], [2, 2], [⟨false, 1, 0, 6, 0⟩, ⟨false, 3, 0, 6, 0⟩],
    [⟨false, 2, 0, 6, 0⟩, ⟨false, 4, 0, 6, 0⟩]⟩

/-- Counterexample to C5 as stated: `ENDFTab1Record.read` happily returns a
record whose NBT sequence is [5, 3] — decreasing, and with last entry 3
different from NP = 2.  The reader performs no monotonicity or terminal
check on NBT. -/
theorem claim_tab1_nbt_counterexample :
    ENDFTab1Record.read ⟨c5lines, 0⟩ = .ok (c5tab, ⟨c5lines, 3⟩) ∧
      pyInt (pySlice (Tape.line ⟨c5lines, 0⟩) 55 66) = some 2 ∧
      c5tab.NBT = [5, 3] ∧ ¬((5 : ℤ) ≤ 3) ∧ c5tab.NBT.getLast? ≠ some 2 := by
  refine ⟨by decide, by decide, by decide, by decide, by decide⟩

/-- C5 (amended): a successful `ENDFTab1Record.read` with declared counts
NR >= 0 and NP >= 0 satisfies `len(NBT) = len(INT) = NR` and
`len(x) = len(y) = NP`; the NBT monotonicity / terminal-value clause of the
original claim is not enforced by the reader. -/
theorem claim_tab1_lengths (s : Tape) (t : ENDFTab1Record) (s' : Tape) (nr np : ℤ)
    (hnr : pyInt (pySlice s.line 44 55) = some nr)
    (hnp : pyInt (pySlice s.line 55 66) = some np)
    (h0 : 0 ≤ nr) (h1 : 0 ≤ np)
    (h : ENDFTab1Record.read s = .ok (t, s')) :
    t.NBT.length = nr.toNat ∧ t.INT.length = nr.toNat ∧
      t.x.length = np.toNat ∧ t.y.length = np.toNat := by
  obtain ⟨-, -, hR, hP⟩ := tab1_read_spec s t s' nr np hnr hnp h
  exact ⟨(hR h0).1, (hR h0).2, (hP h1).1, (hP h1).2⟩

/-- The TAB1 record decoded from `c6lines`. -/
def c6tab : ENDFTab1Record :=
  ⟨[7], [3], [⟨false, 5, 0, 6, 0⟩], [⟨false, 6, 0, 6, 0⟩]⟩

/-- Witness for C5: the length invariant at the concrete NR=1, NP=1 record. -/
theorem claim_tab1_lengths_witness :
    c6tab.NBT.length = (1 : ℤ).toNat ∧ c6tab.INT.length = (1 : ℤ).toNat ∧
      c6tab.x.length = (1 : ℤ).toNat ∧ c6tab.y.length = (1 : ℤ).toNat :=
  claim_tab1_lengths ⟨c6lines, 0⟩ c6tab ⟨c6lines, 3⟩ 1 1
    (by decide) (by decide) (by decide) (by decide) (by decide)

/-- Counterexample to C6 as stated for TAB1: the NR=1, NP=1 TAB1 record of
`c6lines` is consumed in 3 physical lines (1 header + 1 region line + 1
pair line), not the 2 + ceil(NR/3) + ceil(NP/3) = 4 lines of the claim:
a TAB1 record starts with a single header line, not a HEAD/CONT pair. -/
theorem claim_record_line_counts_counterexample :
    ENDFTab1Record.read ⟨c6lines, 0⟩ = .ok (c6tab, ⟨c6lines, 3⟩) ∧
      pyInt (pySlice (Tape.line ⟨c6lines, 0⟩) 44 55) = some 1 ∧
      pyInt (pySlice (Tape.line ⟨c6lines, 0⟩) 55 66) = some 1 ∧
      (⟨c6lines, 3⟩ : Tape).pos ≠ 0 + (2 + (1 + 2) / 3 + (1 + 2) / 3) := by
  refine ⟨by decide, by decide, by decide, by decide⟩

/-- C6 (amended): each record read advances the stream by exactly the lines
its shape requires — 1 line for TEXT/CONT/HEAD, `1 + ceil(NPL/6)` for LIST,
and `1 + ceil(NR/3) + ceil(NP/3)` for TAB1 (the original claim's `2 + ...`
TAB1 count is off by one) — and touches nothing but the cursor. -/
theorem claim_record_line_counts :
    (∀ (s : Tape) (r : TextItems) (s' : Tape), getTextRecord s = .ok (r, s') →
       s'.pos = s.pos + 1 ∧ s'.lines = s.lines) ∧
    (∀ (b : Bool) (s : Tape) (r : ContItems) (s' : Tape), getContRecord b s = .ok (r, s') →
       s'.pos = s.pos + 1 ∧ s'.lines = s.lines) ∧
    (∀ (s : Tape) (r : HeadItems) (s' : Tape), getHeadRecord s = .ok (r, s') →
       s'.pos = s.pos + 1 ∧ s'.lines = s.lines) ∧
    (∀ (s : Tape) (r : ContItems × List PyNum) (s' : Tape), getListRecord s = .ok (r, s') →
       s'.pos = s.pos + 1 + (r.1.N1.toNat + 5) / 6 ∧ s'.lines = s.lines) ∧
    (∀ (s : Tape) (t : ENDFTab1Record) (s' : Tape) (nr np : ℤ),
       pyInt (pySlice s.line 44 55) = some nr → pyInt (pySlice s.line 55 66) = some np →
       ENDFTab1Record.read s = .ok (t, s') →
       s'.pos = s.pos + 1 + ((nr.toNat + 2) / 3 + (np.toNat + 2) / 3) ∧ s'.lines = s.lines) := by
  refine ⟨?_, ?_, ?_, ?_, ?_⟩
  · intro s r s' h
    rw [getTextRecord_adv s r s' h]
    exact ⟨rfl, rfl⟩
  · intro b s r s' h
    rw [(getContRecord_adv b s r s' h).1]
    exact ⟨rfl, rfl⟩
  · intro s r s' h
    rw [getHeadRecord_adv s r s' h]
    exact ⟨rfl, rfl⟩
  · intro s r s' h
    obtain ⟨h1, h2, -⟩ := getListRecord_spec s r s' h
    exact ⟨h2, h1⟩
  · intro s t s' nr np hnr hnp h
    obtain ⟨h1, h2, -, -⟩ := tab1_read_spec s t s' nr np hnr hnp h
    exact ⟨h2, h1⟩

/-- Witness for C6: the TAB1 count at the concrete NR=1, NP=1 record. -/
theorem claim_record_line_counts_witness :
    (⟨c6lines, 3⟩ : Tape).pos =
        (⟨c6lines, 0⟩ : Tape).pos + 1 + (((1 : ℤ).toNat + 2) / 3 + ((1 : ℤ).toNat + 2) / 3) ∧
      (⟨c6lines, 3⟩ : Tape).lines = (⟨c6lines, 0⟩ : Tape).lines :=
  claim_record_line_counts.2.2.2.2 ⟨c6lines, 0⟩ c6tab ⟨c6lines, 3⟩ 1 1
    (by decide) (by decide) (by decide)

/-- Counterexample to C8 as stated: removing the final continuation line of
a TAB1 record makes the read fail with Python's built-in IndexError (raised
by `convert` on the empty string `readline()` returns past the end) — the
module defines no exception classes, so no `UnexpectedEndOfStreamError`
exists to be raised. -/
theorem claim_tab1_truncation_counterexample :
    ENDFTab1Record.read ⟨c8lines, 0⟩ = .error PyErr.indexError ∧
      (⟨c8lines, 0⟩ : Tape).lines.length = 2 ∧
      pyInt (pySlice (Tape.line ⟨c8lines, 0⟩) 55 66) = some 2 := by
  refine ⟨by decide, by decide, by decide⟩

/-- C8 (amended): a stream with fewer lines than a TAB1 record needs can
never yield a successful (silent partial) result — a successful read never
moves the cursor past the last existing line — and the concrete truncated
record of `c8lines` fails with IndexError. -/
theorem claim_tab1_truncation :
    (∀ (s : Tape) (t : ENDFTab1Record) (s' : Tape),
       ENDFTab1Record.read s = .ok (t, s') → s'.pos ≤ s.lines.length) ∧
    ENDFTab1Record.read ⟨c8lines, 0⟩ = .error PyErr.indexError :=
  ⟨fun s t s' h => tab1_read_bounded s t s' h, by decide⟩

/-- Witness for C8: the no-overrun bound at the concrete NR=1, NP=1 record. -/
theorem claim_tab1_truncation_witness :
    (⟨c6lines, 3⟩ : Tape).pos ≤ (⟨c6lines, 0⟩ : Tape).lines.length :=
  claim_tab1_truncation.1 ⟨c6lines, 0⟩ c6tab ⟨c6lines, 3⟩ (by decide)

/-- MT=460 section head followed by its SEND line and a further section
head. -/
def c2blines : List (List Char) :=
  [ mkLine "1.000000+0" "2.000000+0" "0" "0" "0" "0" "125" "1" "460" "1",
    mkLine "" "" "0" "0" "0" "0" "125" "1" "0" "99999",
    mkLine "1.000000+0" "2.000000+0" "0" "1" "0" "0" "125" "1" "456" "1" ]

/-- C2 is a code bug: `readFissionEnergy` (MT=458) and `readDelayedPhoton`
(MT=460) consume only their HEAD line and return with the cursor still on
the section's SEND record (a line whose MT columns decode to 0), so the
trailing section-end line is NOT consumed and every later section reads
shifted lines.  (`readDelayedNu` likewise skips the SEND line only in its
`LNU=2, LDG=0` branch.) -/
theorem claim_send_record_bug :
    readFissionEnergy ⟨c2lines, 0⟩ =
        .ok (⟨458, none, none, none, none, none, none⟩, ⟨c2lines, 1⟩) ∧
      pyInt (pySlice (Tape.line ⟨c2lines, 1⟩) 72 75) = some 0 ∧
      readDelayedPhoton ⟨c2blines, 0⟩ =
        .ok (⟨460, none, none, none, none, none, none⟩, ⟨c2blines, 1⟩) ∧
      pyInt (pySlice (Tape.line ⟨c2blines, 1⟩) 72 75) = some 0 := by
  refine ⟨by decide, by decide, by decide, by decide⟩

/-- The reaction the dispatcher builds for the MT=452 entry of `c3lines`. -/
def c3r452 : ENDFReaction :=
  { MT := 452, LNU := some 1,
    coeffs := some ({ C1 := some ⟨false, 0, 0, 6, 0⟩, C2 := some ⟨false, 0, 0, 6, 0⟩,
                      L1 := 0, L2 := 0, N1 := 2, N2 := 0,
                      MAT := 125, MF := 1, MT := 452, NS := 2 },
                    [⟨false, 1, 500000, 6, 0⟩, ⟨false, 2, 500000, 6, 0⟩]) }

/-- The reaction the dispatcher builds for the MT=456 entry of `c3lines` —
holding the unknown MT=999 section's payload. -/
def c3r456 : ENDFReaction :=
  { MT := 456, LNU := some 1,
    valueList := some [⟨false, 1, 0, 6, 1⟩, ⟨false, 2, 0, 6, 1⟩] }

/-- Counterexample to C3 as stated: on `c3lines` (a recognized MT=452
section, then an unrecognized MT=999 section holding the values 10 and 20,
then a recognized MT=456 section holding 30 and 40), the dispatcher raises
nothing but, having skipped the MT=999 entry without moving the cursor, it
parses the MT=456 entry FROM the MT=999 section: the resulting reaction
carries the values 10, 20 instead of the 456 section's 30, 40, and the
cursor ends at line 8 (the 456 section's head) with the 456 section never
read.  Skipping does desynchronize the cursor. -/
theorem claim_dispatch_skip_counterexample :
    dispatchLoop [(1, 452, 1, 0), (1, 999, 1, 0), (1, 456, 1, 0)] ⟨c3lines, 0⟩ =
        .ok ([c3r452, c3r456], ⟨c3lines, 8⟩) ∧
      c3r456.valueList.map (fun l => l.map toRat) = some [10, 20] ∧
      convertVal (pySlice (Tape.line ⟨c3lines, 10⟩) 0 11) = .ok 30 ∧
      ¬(some ([10, 20] : List ℚ) = some [30, 40]) := by
  refine ⟨by decide, ?_, ?_, by norm_num⟩
  · simp [c3r456, toRat]
    norm_num
  · unfold convertVal
    rw [show convert (pySlice (Tape.line ⟨c3lines, 10⟩) 0 11) = .ok ⟨false, 3, 0, 6, 1⟩ from
      by decide]
    show Except.ok (toRat ⟨false, 3, 0, 6, 1⟩) = _
    norm_num [toRat]

/-- C3 (amended): for every directory entry whose (MF, MT) is not one of
the five recognized kinds, the dispatcher raises no error, produces no
reaction, and does nothing at all to the stream — the cursor is NOT
advanced past the skipped section, which is exactly why a later recognized
entry can be parsed from the wrong position. -/
theorem claim_dispatch_skip (mf mt nc md : ℤ) (rest : List (ℤ × ℤ × ℤ × ℤ)) (s : Tape)
    (h : ¬(mf = 1 ∧ (mt = 452 ∨ mt = 455 ∨ mt = 456 ∨ mt = 458 ∨ mt = 460))) :
    dispatchLoop ((mf, mt, nc, md) :: rest) s = dispatchLoop rest s :=
  dispatchLoop_skip mf mt nc md rest s h

/-- Witness for C3: an MF=2 entry is skipped without any effect. -/
theorem claim_dispatch_skip_witness :
    dispatchLoop [(2, 151, 1, 0)] ⟨c3lines, 0⟩ = dispatchLoop [] ⟨c3lines, 0⟩ :=
  claim_dispatch_skip 2 151 1 0 [] ⟨c3lines, 0⟩ (by decide)

/-- C7 is a code bug: on the garbage slot `"1.2.3      "` (second-to-last
character not a sign) `convert` takes its `eval(string)` fallback — the
dynamic evaluate-as-code path — which raises a plain SyntaxError
(`evalFailure` in this model); the module defines no `MalformedFieldError`
and no explicit numeric-literal parser. -/
theorem claim_convert_eval_fallback :
    convert "1.2.3      ".toList = .error PyErr.evalFailure ∧
      convertVal "1.2.3      ".toList = .error PyErr.evalFailure ∧
      evalNum "1.2.3      ".toList = none := by
  refine ⟨by decide, by decide, by decide⟩

/-- C9 is a code bug: a blank 11-column slot does not decode to zero —
`int('           ')` raises ValueError (`pyInt` = none) and
`convert('           ')` reaches the `eval` fallback, which raises on
whitespace-only input, instead of yielding 0. -/
theorem claim_blank_slot_not_zero :
    pyInt (List.replicate 11 ' ') = none ∧
      convert (List.replicate 11 ' ') = .error PyErr.evalFailure ∧
      ¬(convertVal (List.replicate 11 ' ') = .ok 0) := by
  refine ⟨by decide, by decide, ?_⟩
  intro h
  rw [show convertVal (List.replicate 11 ' ') = .error PyErr.evalFailure from by decide] at h
  cases h

/-- C10: `findFile` returns None when no file carries the requested number
and `findMT` returns None when no reaction carries the requested type (no
exception, and being pure functions of the document they touch neither the
document nor the stream); when a match exists each returns the first match
in insertion order (`List.find?` over the files, resp. over the
concatenated reaction lists). -/
theorem claim_find_absent :
    (∀ (ev : Evaluation) (n : ℤ), (∀ f ∈ ev.files, f.fileNumber ≠ n) →
       ev.findFile n = none) ∧
    (∀ (ev : Evaluation) (mt : ℤ), (∀ f ∈ ev.files, ∀ r ∈ f.reactions, r.MT ≠ mt) →
       ev.findMT mt = none) ∧
    (∀ (ev : Evaluation) (n : ℤ),
       ev.findFile n = ev.files.find? (fun f => decide (f.fileNumber = n))) ∧
    (∀ (ev : Evaluation) (mt : ℤ),
       ev.findMT mt =
         ((ev.files.map ENDFFile.reactions).flatten).find? (fun r => decide (r.MT = mt))) := by
  refine ⟨?_, ?_, ?_, ?_⟩
  · intro ev n h
    rw [Evaluation.findFile, findFileAux_eq, List.find?_eq_none]
    intro f hf
    simp [h f hf]
  · intro ev mt h
    rw [Evaluation.findMT, findMTAux_eq, List.find?_eq_none]
    intro r hr
    simp only [List.mem_flatten, List.mem_map] at hr
    obtain ⟨l, ⟨f, hf, rfl⟩, hrl⟩ := hr
    simp [h f hf r hrl]
  · intro ev n
    exact findFileAux_eq ev.files n
  · intro ev mt
    exact findMTAux_eq ev.files mt

/-- Witness for C10: an empty evaluation yields None for file 3. -/
theorem claim_find_absent_witness :
    (⟨[]⟩ : Evaluation).findFile 3 = none :=
  claim_find_absent.1 ⟨[]⟩ 3 (by simp)
